import Mathlib

/-!
Verification of the churn-prediction feature-engineering pipeline
(src/python/feature_engineering.py and src/python/utils.py).

The pipeline is embedded shallowly: a pandas DataFrame of transaction
lines becomes a `List Txn`; timestamps are integers (seconds since an
epoch, so that the pandas `.days` accessor of a Timedelta becomes a
floor division by 86400); monetary values are rationals; each pandas
group-by aggregation becomes a per-customer function over the filtered
list.  The fallible step (`check_data_leakage`, which raises ValueError
in the source) returns `Except`.
-/

namespace Churn

/-- One transaction line of the cleaned input table
(columns of data/interim/cleaned_retail_data.csv as read in Step 1,
including the upstream-derived columns total_amount and is_return). -/
structure Txn where
  invoice : String
  stock_code : String
  customer_id : Int
  quantity : Int
  price : ℚ
  country : String
  invoice_date : Int
  total_amount : ℚ
  is_return : Bool
  deriving DecidableEq, Repr

/-- Seconds per day: the pandas Timedelta .days accessor floor-divides by this. -/
def secondsPerDay : Int := 86400

/-- Maximum of a list of timestamps; `none` on the empty list, mirroring the
pandas Series.max() returning NaT for an empty datetime series. -/
def listMax : List Int → Option Int
  | [] => none
  | a :: l =>
    match listMax l with
    | none => some a
    | some m => some (max a m)

/-- Minimum of a list of timestamps; `none` on the empty list, mirroring the
pandas Series.min() returning NaT for an empty datetime series. -/
def listMin : List Int → Option Int
  | [] => none
  | a :: l =>
    match listMin l with
    | none => some a
    | some m => some (min a m)

/-- Embedding of utils.split_by_time_window: observation gets the rows with
invoice_date strictly before observation_end, outcome gets the rows with
invoice_date at or after outcome_start. -/
def split_by_time_window (df : List Txn) (observation_end outcome_start : Int) :
    List Txn × List Txn :=
  (df.filter (fun t => decide (t.invoice_date < observation_end)),
   df.filter (fun t => decide (outcome_start ≤ t.invoice_date)))

/-- Distinct error kind for the fatal leakage check (the source raises a
ValueError whose message begins with the words Data leakage detected). -/
inductive PipeError where
  | dataLeakage
  deriving DecidableEq, Repr

/-- Maximum invoice_date of a table, NaT (`none`) when the table is empty. -/
def maxDate (l : List Txn) : Option Int := listMax (l.map (fun t => t.invoice_date))

/-- Minimum invoice_date of a table, NaT (`none`) when the table is empty. -/
def minDate (l : List Txn) : Option Int := listMin (l.map (fun t => t.invoice_date))

/-- Embedding of utils.check_data_leakage: raises iff obs_max >= outcome_min.
When either window is empty the source compares against NaT, and every
comparison with NaT is False in pandas, so no error is raised; the
wildcard branch reproduces that. -/
def check_data_leakage (observation_df outcome_df : List Txn) :
    Except PipeError Unit :=
  match maxDate observation_df, minDate outcome_df with
  | some obs_max, some outcome_min =>
      if outcome_min ≤ obs_max then Except.error PipeError.dataLeakage
      else Except.ok ()
  | _, _ => Except.ok ()

/-- Rows of a table belonging to one customer (the group of a pandas
groupby on customer_id). -/
def custTxns (df : List Txn) (c : Int) : List Txn :=
  df.filter (fun t => decide (t.customer_id = c))

/-- Number of distinct invoice identifiers in a list of rows
(the pandas nunique aggregation on the invoice column). -/
def nInvoices (ts : List Txn) : Nat :=
  ((ts.map (fun t => t.invoice)).dedup).length

/-- First purchase timestamp of a list of rows (min of invoice_date). -/
def first_purchase (ts : List Txn) : Option Int :=
  listMin (ts.map (fun t => t.invoice_date))

/-- The distinct customer identifiers appearing in a table. -/
def customers (df : List Txn) : List Int :=
  (df.map (fun t => t.customer_id)).dedup

/-- Embedding of the Step 3 hybrid eligibility test for one customer:
first purchase at or before observation_end minus min_tenure_days, and
at least min_frequency distinct invoices, both over the observation set. -/
def eligible (observation_df : List Txn) (observation_end : Int)
    (min_tenure_days min_frequency : Nat) (c : Int) : Bool :=
  match first_purchase (custTxns observation_df c) with
  | none => false
  | some fp =>
      decide (fp ≤ observation_end - secondsPerDay * (min_tenure_days : Int)) &&
      decide (min_frequency ≤ nInvoices (custTxns observation_df c))

/-- The eligible-customer set of Step 3 (as an index list). -/
def eligible_customers (observation_df : List Txn) (observation_end : Int)
    (min_tenure_days min_frequency : Nat) : List Int :=
  (customers observation_df).filter
    (eligible observation_df observation_end min_tenure_days min_frequency)

/-- Absolute value on rationals, as the pandas .abs() used on return_amount. -/
def qabs (x : ℚ) : ℚ := if x < 0 then -x else x

/-- Mean of a list of rationals; the empty list yields 0, which coincides
with the fillna(0) applied to the basket metrics in Step 8. -/
def qmean (l : List ℚ) : ℚ := l.sum / (l.length : ℚ)

/-- Span in whole days between the earliest and the latest invoice_date of
a group (pandas Timedelta .days on last minus first). -/
def days_span (ts : List Txn) : Int :=
  Int.fdiv ((listMax (ts.map (fun t => t.invoice_date))).getD 0 -
            (listMin (ts.map (fun t => t.invoice_date))).getD 0) secondsPerDay

/-- Step 4 recency of a group: whole days from the latest invoice_date to
observation_end. -/
def recency_of (ts : List Txn) (observation_end : Int) : Int :=
  Int.fdiv (observation_end - (listMax (ts.map (fun t => t.invoice_date))).getD 0)
    secondsPerDay

/-- Step 4 monetary_net of a group: sum of total_amount over all lines. -/
def monetary_net_of (ts : List Txn) : ℚ :=
  (ts.map (fun t => t.total_amount)).sum

/-- Step 4 monetary_gross of a group: sum of total_amount over the lines
with positive total_amount. -/
def monetary_gross_of (ts : List Txn) : ℚ :=
  ((ts.filter (fun t => decide (0 < t.total_amount))).map (fun t => t.total_amount)).sum

/-- Purchase lines of a group (quantity strictly positive). -/
def purchase_lines (ts : List Txn) : List Txn :=
  ts.filter (fun t => decide (0 < t.quantity))

/-- Summed quantity of the lines of one invoice inside a group. -/
def invoice_quantity (ts : List Txn) (inv : String) : Int :=
  ((ts.filter (fun t => decide (t.invoice = inv))).map (fun t => t.quantity)).sum

/-- Per-invoice summed purchase quantities of a group (Step 5 basket_sizes). -/
def basket_sums (ts : List Txn) : List Int :=
  (((purchase_lines ts).map (fun t => t.invoice)).dedup).map
    (invoice_quantity (purchase_lines ts))

/-- Step 5 avg_items_per_basket: mean per-invoice summed purchase quantity;
0 when the customer has no purchase lines (the Step 8 fillna). -/
def avg_items_per_basket_of (ts : List Txn) : ℚ :=
  qmean ((basket_sums ts).map (fun n => (n : ℚ)))

/-- Step 5 avg_units_per_line: mean quantity over purchase lines;
0 when the customer has no purchase lines (the Step 8 fillna). -/
def avg_units_per_line_of (ts : List Txn) : ℚ :=
  qmean ((purchase_lines ts).map (fun t => (t.quantity : ℚ)))

/-- Step 5 purchase_velocity: frequency / ((days_as_customer + 1) / 30). -/
def purchase_velocity_of (ts : List Txn) : ℚ :=
  (nInvoices ts : ℚ) / (((days_span ts : ℚ) + 1) / 30)

/-- Step 5 avg_days_between_purchases: (days_as_customer + 1) / frequency. -/
def avg_days_between_purchases_of (ts : List Txn) : ℚ :=
  ((days_span ts : ℚ) + 1) / (nInvoices ts : ℚ)

/-- Return lines of a group (is_return true). -/
def return_lines (ts : List Txn) : List Txn :=
  ts.filter (fun t => t.is_return)

/-- Step 6 n_return_invoices: distinct invoices among the return lines. -/
def n_return_invoices_of (ts : List Txn) : Nat :=
  nInvoices (return_lines ts)

/-- Step 6 return_amount: absolute value of the summed total_amount of the
return lines (0 for a customer with no return lines, matching fillna). -/
def return_amount_of (ts : List Txn) : ℚ :=
  qabs (((return_lines ts).map (fun t => t.total_amount)).sum)

/-- Step 6 return_rate: n_return_invoices / frequency. -/
def return_rate_of (ts : List Txn) : ℚ :=
  (n_return_invoices_of ts : ℚ) / (nInvoices ts : ℚ)

/-- Step 7 purchase_customers: the distinct customers having a line with
positive quantity in the outcome window. -/
def purchase_customers (outcome_df : List Txn) : List Int :=
  ((outcome_df.filter (fun t => decide (0 < t.quantity))).map
    (fun t => t.customer_id)).dedup

/-- One row of the merged feature table of Step 8.  The churned column is
an Option because a failed left join in pandas would leave NaN there;
Step 9 checks for exactly that. -/
structure FeatureRow where
  customer_id : Int
  recency : Int
  frequency : Nat
  monetary_net : ℚ
  monetary_gross : ℚ
  unique_products : Nat
  first_purchase_date : Int
  last_purchase_date : Int
  avg_items_per_basket : ℚ
  avg_units_per_line : ℚ
  days_as_customer : Int
  purchase_velocity : ℚ
  avg_days_between_purchases : ℚ
  n_return_invoices : Nat
  return_amount : ℚ
  return_rate : ℚ
  has_returns : Bool
  churned : Option Nat
  deriving DecidableEq, Repr

/-- The merged feature row of one customer: Steps 4 to 8 evaluated on the
group of that customer inside the restricted observation set, with the
churn label joined from the outcome window. -/
def featureRow (obsR outW : List Txn) (observation_end : Int) (c : Int) :
    FeatureRow :=
  { customer_id := c
  , recency := recency_of (custTxns obsR c) observation_end
  , frequency := nInvoices (custTxns obsR c)
  , monetary_net := monetary_net_of (custTxns obsR c)
  , monetary_gross := monetary_gross_of (custTxns obsR c)
  , unique_products := (((custTxns obsR c).map (fun t => t.stock_code)).dedup).length
  , first_purchase_date := (listMin ((custTxns obsR c).map (fun t => t.invoice_date))).getD 0
  , last_purchase_date := (listMax ((custTxns obsR c).map (fun t => t.invoice_date))).getD 0
  , avg_items_per_basket := avg_items_per_basket_of (custTxns obsR c)
  , avg_units_per_line := avg_units_per_line_of (custTxns obsR c)
  , days_as_customer := days_span (custTxns obsR c)
  , purchase_velocity := purchase_velocity_of (custTxns obsR c)
  , avg_days_between_purchases := avg_days_between_purchases_of (custTxns obsR c)
  , n_return_invoices := n_return_invoices_of (custTxns obsR c)
  , return_amount := return_amount_of (custTxns obsR c)
  , return_rate := return_rate_of (custTxns obsR c)
  , has_returns := decide (0 < n_return_invoices_of (custTxns obsR c))
  , churned := some (if c ∈ purchase_customers outW then 0 else 1) }

/-- Observation window produced by Step 2. -/
def observation_window (df : List Txn) (observation_end outcome_start : Int) :
    List Txn :=
  (split_by_time_window df observation_end outcome_start).1

/-- Outcome window produced by Step 2. -/
def outcome_window (df : List Txn) (observation_end outcome_start : Int) :
    List Txn :=
  (split_by_time_window df observation_end outcome_start).2

/-- Step 3 restriction of the observation window to the eligible customers. -/
def obs_restricted (df : List Txn) (observation_end outcome_start : Int)
    (min_tenure_days min_frequency : Nat) : List Txn :=
  (observation_window df observation_end outcome_start).filter
    (fun t => decide (t.customer_id ∈
      eligible_customers (observation_window df observation_end outcome_start)
        observation_end min_tenure_days min_frequency))

/-- The merged feature table: one row per customer of the restricted
observation set (the population of the Step 4 groupby, which anchors
every later left join). -/
def run_features (df : List Txn) (observation_end outcome_start : Int)
    (min_tenure_days min_frequency : Nat) : List FeatureRow :=
  (customers (obs_restricted df observation_end outcome_start
      min_tenure_days min_frequency)).map
    (featureRow
      (obs_restricted df observation_end outcome_start min_tenure_days min_frequency)
      (outcome_window df observation_end outcome_start)
      observation_end)

/-- The Step 9 data quality checks: each fatal-class condition appends the
error message that log_error prints in the source.  None of them aborts. -/
def quality_errors (features : List FeatureRow) : List String :=
  (if features.any (fun r => decide (r.recency < 0)) then
    ["Negative recency values detected - check observation window logic"] else []) ++
  (if features.any (fun r => r.churned.isNone) then
    ["missing churn labels"] else []) ++
  (if ¬ (features.map (fun r => r.customer_id)).Nodup then
    ["Duplicate customer_ids detected"] else []) ++
  (if features.any (fun r => decide (r.monetary_gross < 0)) then
    ["Negative monetary_gross detected - should be impossible"] else [])

/-- Observable outcome of Steps 9 to 11: the error messages logged by the
quality checks, whether the report of Step 10 was printed, and the table
written by the Step 11 export (none would mean no file written). -/
structure StageOutput where
  error_logs : List String
  report_printed : Bool
  exported : Option (List FeatureRow)
  deriving DecidableEq, Repr

/-- Embedding of Steps 9, 10 and 11 of the source, which are straight-line:
the checks only call log_error (a print), the report is printed, and
features.to_csv runs unconditionally. -/
def checks_and_export (features : List FeatureRow) : StageOutput :=
  { error_logs := quality_errors features
  , report_printed := true
  , exported := some features }

/-- The whole pipeline after loading: split, leakage check (the only point
that can raise), eligibility restriction, feature build, quality checks
and export. -/
def run_pipeline (df : List Txn) (observation_end outcome_start : Int)
    (min_tenure_days min_frequency : Nat) : Except PipeError StageOutput :=
  match check_data_leakage
      (observation_window df observation_end outcome_start)
      (outcome_window df observation_end outcome_start) with
  | Except.error e => Except.error e
  | Except.ok _ =>
      Except.ok (checks_and_export
        (run_features df observation_end outcome_start min_tenure_days min_frequency))

/-- Modelled from the spec: the upstream cleaning stage (outside src/, an
external collaborator per the spec) derives total_amount as quantity
times price and is_return from the quantity sign, and prices are
non-negative.  A line of the cleaned input satisfying that contract. -/
@[reducible] def cleanedLine (t : Txn) : Prop :=
  t.total_amount = (t.quantity : ℚ) * t.price ∧
  t.is_return = decide (t.quantity < 0) ∧ 0 ≤ t.price

/-- Timestamp of midnight of a given day index, in seconds. -/
def day (n : Int) : Int := n * secondsPerDay

/-- Sample line: invoice A, 2 units at 5 on day 1, customer 1. -/
def txnA1 : Txn :=
  { invoice := "A", stock_code := "S1", customer_id := 1, quantity := 2, price := 5
  , country := "UK", invoice_date := day 1, total_amount := 10, is_return := false }

/-- Sample line: invoice A, 3 units at 5 on day 1, customer 1. -/
def txnA2 : Txn :=
  { invoice := "A", stock_code := "S2", customer_id := 1, quantity := 3, price := 5
  , country := "UK", invoice_date := day 1, total_amount := 15, is_return := false }

/-- Sample line: invoice B, a return of 1 unit at 5 on day 50, customer 1. -/
def txnB : Txn :=
  { invoice := "B", stock_code := "S1", customer_id := 1, quantity := -1, price := 5
  , country := "UK", invoice_date := day 50, total_amount := -5, is_return := true }

/-- Sample line: invoice C, 1 unit at 1 on day 5, customer 2 (its only invoice). -/
def txnC : Txn :=
  { invoice := "C", stock_code := "S3", customer_id := 2, quantity := 1, price := 1
  , country := "UK", invoice_date := day 5, total_amount := 1, is_return := false }

/-- Sample line: invoice Z, a pure return on day 120, customer 1 (outcome window). -/
def txnZ : Txn :=
  { invoice := "Z", stock_code := "S1", customer_id := 1, quantity := -3, price := 1
  , country := "UK", invoice_date := day 120, total_amount := -3, is_return := true }

/-- Sample input table for the witnesses. -/
def sampleDf : List Txn := [txnA1, txnA2, txnB, txnC, txnZ]

/-- Sample observation_end boundary: day 100. -/
def sampleE : Int := day 100

/-- Sample outcome_start boundary: day 100. -/
def sampleS : Int := day 100

/-- A feature-table row violating three fatal-class conditions at once:
negative recency, missing churn label, negative monetary_gross. -/
def badRow1 : FeatureRow :=
  { customer_id := 7, recency := -1, frequency := 0, monetary_net := 0
  , monetary_gross := -5, unique_products := 0, first_purchase_date := 0
  , last_purchase_date := 0, avg_items_per_basket := 0, avg_units_per_line := 0
  , days_as_customer := 0, purchase_velocity := 0, avg_days_between_purchases := 0
  , n_return_invoices := 0, return_amount := 0, return_rate := 0
  , has_returns := false, churned := none }

/-- A second row with the same customer identifier, so the merged table also
violates customer_id uniqueness. -/
def badRow2 : FeatureRow :=
  { badRow1 with recency := 3, monetary_gross := 0, churned := some 0 }

/-- A merged feature table on which every fatal-class Step 9 check fails. -/
def badFeatures : List FeatureRow := [badRow1, badRow2]

end Churn

namespace Churn

/-- listMax returns none only on the empty list. -/
theorem listMax_eq_none {l : List Int} (h : listMax l = none) : l = [] := by
  cases l with
  | nil => rfl
  | cons a l =>
    simp only [listMax] at h
    cases hl : listMax l <;> rw [hl] at h <;> simp at h

/-- A value returned by listMax is a member of the list. -/
theorem listMax_mem : ∀ {l : List Int} {m : Int}, listMax l = some m → m ∈ l := by
  intro l
  induction l with
  | nil => intro m h; simp [listMax] at h
  | cons a l ih =>
    intro m h
    cases hl : listMax l with
    | none => rw [listMax, hl] at h; simp at h; simp [h]
    | some b =>
      rw [listMax, hl] at h
      simp at h
      rcases max_choice a b with h1 | h1
      · rw [h1] at h; simp [h]
      · rw [h1] at h; right; exact h ▸ ih hl

/-- Every element of the list is at most the value returned by listMax. -/
theorem le_listMax : ∀ {l : List Int} {m : Int}, listMax l = some m →
    ∀ a ∈ l, a ≤ m := by
  intro l
  induction l with
  | nil => intro m h; simp [listMax] at h
  | cons a l ih =>
    intro m h x hx
    cases hl : listMax l with
    | none =>
      rw [listMax, hl] at h; simp at h
      have hnil := listMax_eq_none hl
      subst hnil
      rcases List.mem_cons.mp hx with hx1 | hx1
      · rw [hx1, h]
      · simp at hx1
    | some b =>
      rw [listMax, hl] at h; simp at h
      rcases List.mem_cons.mp hx with hx1 | hx1
      · rw [hx1, ← h]; exact le_max_left a b
      · calc x ≤ b := ih hl x hx1
          _ ≤ m := by rw [← h]; exact le_max_right a b

/-- listMax of a nonempty list is some value. -/
theorem listMax_of_ne_nil {l : List Int} (h : l ≠ []) : ∃ m, listMax l = some m := by
  cases hl : listMax l with
  | none => exact absurd (listMax_eq_none hl) h
  | some b => exact ⟨b, rfl⟩

/-- listMin returns none only on the empty list. -/
theorem listMin_eq_none {l : List Int} (h : listMin l = none) : l = [] := by
  cases l with
  | nil => rfl
  | cons a l =>
    simp only [listMin] at h
    cases hl : listMin l <;> rw [hl] at h <;> simp at h

/-- A value returned by listMin is a member of the list. -/
theorem listMin_mem : ∀ {l : List Int} {m : Int}, listMin l = some m → m ∈ l := by
  intro l
  induction l with
  | nil => intro m h; simp [listMin] at h
  | cons a l ih =>
    intro m h
    cases hl : listMin l with
    | none => rw [listMin, hl] at h; simp at h; simp [h]
    | some b =>
      rw [listMin, hl] at h
      simp at h
      rcases min_choice a b with h1 | h1
      · rw [h1] at h; simp [h]
      · rw [h1] at h; right; exact h ▸ ih hl

/-- The value returned by listMin is at most every element of the list. -/
theorem listMin_le : ∀ {l : List Int} {m : Int}, listMin l = some m →
    ∀ a ∈ l, m ≤ a := by
  intro l
  induction l with
  | nil => intro m h; simp [listMin] at h
  | cons a l ih =>
    intro m h x hx
    cases hl : listMin l with
    | none =>
      rw [listMin, hl] at h; simp at h
      have hnil := listMin_eq_none hl
      subst hnil
      rcases List.mem_cons.mp hx with hx1 | hx1
      · rw [hx1, h]
      · simp at hx1
    | some b =>
      rw [listMin, hl] at h; simp at h
      rcases List.mem_cons.mp hx with hx1 | hx1
      · rw [hx1, ← h]; exact min_le_left a b
      · calc m ≤ b := by rw [← h]; exact min_le_right a b
          _ ≤ x := ih hl x hx1

/-- listMin of a nonempty list is some value. -/
theorem listMin_of_ne_nil {l : List Int} (h : l ≠ []) : ∃ m, listMin l = some m := by
  cases hl : listMin l with
  | none => exact absurd (listMin_eq_none hl) h
  | some b => exact ⟨b, rfl⟩

/-- Membership in the group of a customer. -/
theorem mem_custTxns {l : List Txn} {c : Int} {t : Txn} :
    t ∈ custTxns l c ↔ t ∈ l ∧ t.customer_id = c := by
  simp [custTxns, List.mem_filter]

/-- Membership in the distinct-customer list of a table. -/
theorem mem_customers {l : List Txn} {c : Int} :
    c ∈ customers l ↔ ∃ t ∈ l, t.customer_id = c := by
  simp [customers, List.mem_dedup, List.mem_map]

/-- The group of a customer appearing in a table is nonempty. -/
theorem custTxns_ne_nil {l : List Txn} {c : Int} (h : c ∈ customers l) :
    custTxns l c ≠ [] := by
  rcases mem_customers.mp h with ⟨t, ht, hc⟩
  intro hnil
  have hmem : t ∈ custTxns l c := mem_custTxns.mpr ⟨ht, hc⟩
  rw [hnil] at hmem
  simp at hmem

/-- A nonempty group has at least one distinct invoice. -/
theorem one_le_nInvoices {ts : List Txn} (h : ts ≠ []) : 1 ≤ nInvoices ts := by
  cases ts with
  | nil => exact absurd rfl h
  | cons a l =>
    have hmem : a.invoice ∈ ((a :: l).map (fun t => t.invoice)).dedup := by
      rw [List.mem_dedup]; simp
    exact List.length_pos.mpr (List.ne_nil_of_mem hmem)

/-- Filtering a group cannot increase the number of distinct invoices. -/
theorem nInvoices_filter_le (ts : List Txn) (p : Txn → Bool) :
    nInvoices (ts.filter p) ≤ nInvoices ts := by
  unfold nInvoices
  have hsub : ((ts.filter p).map (fun t => t.invoice)).toFinset ⊆
      (ts.map (fun t => t.invoice)).toFinset := by
    intro x hx
    rw [List.mem_toFinset] at hx ⊢
    rcases List.mem_map.mp hx with ⟨t, ht, rfl⟩
    exact List.mem_map.mpr ⟨t, List.mem_of_mem_filter ht, rfl⟩
  have h1 := List.card_toFinset ((ts.filter p).map (fun t => t.invoice))
  have h2 := List.card_toFinset (ts.map (fun t => t.invoice))
  rw [← h1, ← h2]
  exact Finset.card_le_card hsub

/-- Splitting a mapped sum by a Boolean predicate on the rows. -/
theorem sum_map_filter_split (l : List Txn) (p : Txn → Bool) (f : Txn → ℚ) :
    ((l.filter p).map f).sum + ((l.filter (fun t => !(p t))).map f).sum =
      (l.map f).sum := by
  induction l with
  | nil => simp
  | cons a l ih =>
    cases hp : p a <;> simp [List.filter_cons, hp] <;> linarith [ih]

/-- A list of nonpositive rationals has nonpositive sum. -/
theorem qsum_nonpos {l : List ℚ} (h : ∀ x ∈ l, x ≤ 0) : l.sum ≤ 0 := by
  induction l with
  | nil => simp
  | cons a l ih =>
    simp only [List.sum_cons]
    have h1 := h a (by simp)
    have h2 := ih (fun x hx => h x (by simp [hx]))
    linarith

/-- A list of nonnegative rationals has nonnegative sum. -/
theorem qsum_nonneg {l : List ℚ} (h : ∀ x ∈ l, 0 ≤ x) : 0 ≤ l.sum := by
  induction l with
  | nil => simp
  | cons a l ih =>
    simp only [List.sum_cons]
    have h1 := h a (by simp)
    have h2 := ih (fun x hx => h x (by simp [hx]))
    linarith

/-- qabs of a nonpositive rational is its negation. -/
theorem qabs_of_nonpos {x : ℚ} (h : x ≤ 0) : qabs x = -x := by
  unfold qabs
  rcases lt_or_eq_of_le h with h1 | h1
  · rw [if_pos h1]
  · rw [h1]; norm_num

/-- Membership in the Step 7 purchase-customer list. -/
theorem mem_purchase_customers {out : List Txn} {c : Int} :
    c ∈ purchase_customers out ↔ ∃ t ∈ out, t.customer_id = c ∧ 0 < t.quantity := by
  simp [purchase_customers, List.mem_dedup, List.mem_map, List.mem_filter]
  constructor
  · rintro ⟨t, ⟨ht, hq⟩, rfl⟩; exact ⟨t, ht, rfl, hq⟩
  · rintro ⟨t, ht, rfl, hq⟩; exact ⟨t, ⟨ht, hq⟩, rfl⟩

end Churn

namespace Churn

/-- Membership in the observation window of Step 2. -/
theorem mem_observation_window {df : List Txn} {e s : Int} {t : Txn} :
    t ∈ observation_window df e s ↔ t ∈ df ∧ t.invoice_date < e := by
  simp [observation_window, split_by_time_window, List.mem_filter]

/-- Membership in the outcome window of Step 2. -/
theorem mem_outcome_window {df : List Txn} {e s : Int} {t : Txn} :
    t ∈ outcome_window df e s ↔ t ∈ df ∧ s ≤ t.invoice_date := by
  simp [outcome_window, split_by_time_window, List.mem_filter]

/-- Membership in the restricted observation set of Step 3. -/
theorem mem_obs_restricted {df : List Txn} {e s : Int} {tn fq : Nat} {t : Txn} :
    t ∈ obs_restricted df e s tn fq ↔
      t ∈ observation_window df e s ∧
      t.customer_id ∈ eligible_customers (observation_window df e s) e tn fq := by
  simp [obs_restricted, List.mem_filter]

/-- Every row of the restricted observation set is dated strictly before
observation_end. -/
theorem obs_restricted_date_lt {df : List Txn} {e s : Int} {tn fq : Nat} {t : Txn}
    (h : t ∈ obs_restricted df e s tn fq) : t.invoice_date < e :=
  (mem_observation_window.mp (mem_obs_restricted.mp h).1).2

/-- Membership in the merged feature table. -/
theorem mem_run_features {df : List Txn} {e s : Int} {tn fq : Nat} {r : FeatureRow} :
    r ∈ run_features df e s tn fq ↔
      ∃ c ∈ customers (obs_restricted df e s tn fq),
        featureRow (obs_restricted df e s tn fq) (outcome_window df e s) e c = r := by
  simp [run_features, List.mem_map]

/-- Recency is nonnegative for a nonempty group dated before observation_end. -/
theorem recency_nonneg {ts : List Txn} {e : Int} (hne : ts ≠ [])
    (hlt : ∀ t ∈ ts, t.invoice_date < e) : 0 ≤ recency_of ts e := by
  have hds : ts.map (fun t => t.invoice_date) ≠ [] := by
    intro hd; exact hne (List.map_eq_nil_iff.mp hd)
  rcases listMax_of_ne_nil hds with ⟨M, hM⟩
  rcases List.mem_map.mp (listMax_mem hM) with ⟨t, ht, hdt⟩
  have hMe : M < e := hdt ▸ hlt t ht
  unfold recency_of
  rw [hM]
  exact Int.fdiv_nonneg (by simp; omega) (by norm_num [secondsPerDay])

/-- The day span of a nonempty group is nonnegative. -/
theorem days_span_nonneg {ts : List Txn} (hne : ts ≠ []) : 0 ≤ days_span ts := by
  have hds : ts.map (fun t => t.invoice_date) ≠ [] := by
    intro hd; exact hne (List.map_eq_nil_iff.mp hd)
  rcases listMax_of_ne_nil hds with ⟨M, hM⟩
  rcases listMin_of_ne_nil hds with ⟨m, hm⟩
  have hmM : m ≤ M := listMin_le hm M (listMax_mem hM)
  unfold days_span
  rw [hM, hm]
  exact Int.fdiv_nonneg (by simp; omega) (by norm_num [secondsPerDay])

/-- Claim C1 (counterexample): on a merged feature table where fatal-class
checks fail (negative recency, missing churn label, duplicate customer
identifiers, negative monetary_gross all at once), the pipeline does not
halt: the quality stage logs the errors and the export still writes the
table. -/
theorem C1_fatal_failure_still_exports :
    quality_errors badFeatures ≠ [] ∧
    (checks_and_export badFeatures).exported = some badFeatures := by
  constructor
  · decide
  · rfl

/-- Claim C1 (amended): when any fatal-class Step 9 check fails on the
merged feature table, the pipeline logs ERROR-level diagnostics but does
not halt: the report is still printed and the export step still writes
the output table. -/
theorem C1_fatal_checks_log_but_do_not_halt (features : List FeatureRow)
    (h : quality_errors features ≠ []) :
    (checks_and_export features).error_logs ≠ [] ∧
    (checks_and_export features).exported = some features ∧
    (checks_and_export features).report_printed = true :=
  ⟨h, rfl, rfl⟩

/-- Witness for C1: the amended theorem applied to the concrete bad table. -/
theorem C1_witness :
    (checks_and_export badFeatures).error_logs ≠ [] ∧
    (checks_and_export badFeatures).exported = some badFeatures ∧
    (checks_and_export badFeatures).report_printed = true :=
  C1_fatal_checks_log_but_do_not_halt badFeatures (by decide)

/-- Claim C2: the splitter keeps exactly the rows dated strictly before
observation_end in the observation subset and exactly the rows dated at
or after outcome_start in the outcome subset, and (both windows being
nonempty, with maximum observation timestamp M and minimum outcome
timestamp m) the leakage check raises the distinct leakage error kind
iff M is not strictly less than m. -/
theorem C2_split_and_leakage_guard (df : List Txn) (e s M m : Int)
    (hM : maxDate (split_by_time_window df e s).1 = some M)
    (hm : minDate (split_by_time_window df e s).2 = some m) :
    (∀ t, t ∈ (split_by_time_window df e s).1 ↔ t ∈ df ∧ t.invoice_date < e) ∧
    (∀ t, t ∈ (split_by_time_window df e s).2 ↔ t ∈ df ∧ s ≤ t.invoice_date) ∧
    (check_data_leakage (split_by_time_window df e s).1 (split_by_time_window df e s).2 =
        Except.error PipeError.dataLeakage ↔ ¬ M < m) := by
  refine ⟨?_, ?_, ?_⟩
  · intro t; simp [split_by_time_window, List.mem_filter]
  · intro t; simp [split_by_time_window, List.mem_filter]
  · unfold check_data_leakage
    rw [hM, hm]
    show (if m ≤ M then Except.error PipeError.dataLeakage else Except.ok ()) =
        Except.error PipeError.dataLeakage ↔ ¬ M < m
    split_ifs with hle <;> simp [hle, not_lt]

/-- Witness for C2: the guard evaluated on the sample table, where the
maximum observation timestamp is day 50 and the minimum outcome
timestamp is day 120. -/
theorem C2_witness :
    check_data_leakage (split_by_time_window sampleDf sampleE sampleS).1
        (split_by_time_window sampleDf sampleE sampleS).2 =
      Except.error PipeError.dataLeakage ↔ ¬ day 50 < day 120 :=
  (C2_split_and_leakage_guard sampleDf sampleE sampleS (day 50) (day 120)
    (by decide) (by decide)).2.2

/-- Claim C9: the pipeline is deterministic: two runs on the same input
table and the same configuration produce the same outcome, including
identical exported feature tables. -/
theorem C9_pipeline_deterministic (df : List Txn) (e s : Int) (tn fq : Nat) :
    run_pipeline df e s tn fq = run_pipeline df e s tn fq := rfl

/-- Claim C10: when either window is empty the leakage check never raises,
because the source compares against NaT and every NaT comparison is
False, so a misconfigured boundary that empties one window passes the
guard silently. -/
theorem C10_empty_window_guard (obs out : List Txn) (h : obs = [] ∨ out = []) :
    check_data_leakage obs out = Except.ok () := by
  rcases h with h | h
  · subst h
    rfl
  · subst h
    unfold check_data_leakage
    cases maxDate obs <;> rfl

/-- Witness for C10: a boundary configuration that empties the observation
window (everything in the sample table is dated after day 0) passes the
leakage check. -/
theorem C10_witness :
    check_data_leakage (observation_window sampleDf (day 0) (day 0))
      (outcome_window sampleDf (day 0) (day 0)) = Except.ok () :=
  C10_empty_window_guard _ _ (Or.inl (by decide))

end Churn

namespace Churn

/-- Claim C4: a customer is in the eligible set iff the minimum
observation-window timestamp exists and is at most observation_end minus
min_tenure_days and the count of distinct invoices in the observation
window is at least min_frequency; and every row of the merged feature
table belongs to an eligible customer. -/
theorem C4_eligibility_characterisation (df : List Txn) (e s : Int)
    (tn fq : Nat) (c : Int) :
    (c ∈ eligible_customers (observation_window df e s) e tn fq ↔
      ∃ fp, first_purchase (custTxns (observation_window df e s) c) = some fp ∧
        fp ≤ e - secondsPerDay * (tn : Int) ∧
        fq ≤ nInvoices (custTxns (observation_window df e s) c)) ∧
    (∀ r ∈ run_features df e s tn fq,
      r.customer_id ∈ eligible_customers (observation_window df e s) e tn fq) := by
  constructor
  · constructor
    · intro hc
      have helig := (List.mem_filter.mp hc).2
      unfold eligible at helig
      cases hfp : first_purchase (custTxns (observation_window df e s) c) with
      | none => rw [hfp] at helig; simp at helig
      | some fp =>
        rw [hfp] at helig
        simp only [Bool.and_eq_true, decide_eq_true_eq] at helig
        exact ⟨fp, rfl, helig.1, helig.2⟩
    · rintro ⟨fp, hfp, hten, hfreq⟩
      apply List.mem_filter.mpr
      refine ⟨?_, ?_⟩
      · have hne : custTxns (observation_window df e s) c ≠ [] := by
          intro hnil
          rw [first_purchase, hnil] at hfp
          simp [listMin] at hfp
        cases hts : custTxns (observation_window df e s) c with
        | nil => exact absurd hts hne
        | cons t ts2 =>
          have ht : t ∈ custTxns (observation_window df e s) c := by rw [hts]; simp
          rcases mem_custTxns.mp ht with ⟨htl, htc⟩
          exact mem_customers.mpr ⟨t, htl, htc⟩
      · unfold eligible
        rw [hfp]
        simp only [Bool.and_eq_true, decide_eq_true_eq]
        exact ⟨hten, hfreq⟩
  · intro r hr
    rcases mem_run_features.mp hr with ⟨c2, hc2, hrow⟩
    rcases mem_customers.mp hc2 with ⟨t, ht, htc⟩
    have helig := (mem_obs_restricted.mp ht).2
    rw [← hrow]
    show c2 ∈ eligible_customers (observation_window df e s) e tn fq
    rw [htc] at helig
    exact helig

/-- Witness for C4: on the sample table, customer 1 (first purchase day 1,
two distinct invoices) is eligible under min_tenure_days 10 and
min_frequency 2, via the characterisation. -/
theorem C4_witness :
    1 ∈ eligible_customers (observation_window sampleDf sampleE sampleS)
        sampleE 10 2 :=
  ((C4_eligibility_characterisation sampleDf sampleE sampleS 10 2 1).1).mpr
    ⟨day 1, by decide, by decide, by decide⟩

/-- Claim C3: every eligible customer receives a row and a label, and the
label is 1 iff the customer has no outcome-window line with positive
quantity (so pure-return or absent customers are labeled 1). -/
theorem C3_churn_label_characterisation (df : List Txn) (e s : Int)
    (tn fq : Nat) (c : Int)
    (hc : c ∈ eligible_customers (observation_window df e s) e tn fq) :
    (∃ r ∈ run_features df e s tn fq, r.customer_id = c) ∧
    (∀ r ∈ run_features df e s tn fq, r.customer_id = c →
      ((r.churned = some 1 ↔
        ¬ ∃ t ∈ outcome_window df e s, t.customer_id = c ∧ 0 < t.quantity) ∧
       (r.churned = some 0 ∨ r.churned = some 1))) := by
  constructor
  · have helig := (List.mem_filter.mp hc).2
    unfold eligible at helig
    cases hfp : first_purchase (custTxns (observation_window df e s) c) with
    | none => rw [hfp] at helig; simp at helig
    | some fp =>
      have hne : custTxns (observation_window df e s) c ≠ [] := by
        intro hnil
        rw [first_purchase, hnil] at hfp
        simp [listMin] at hfp
      cases hts : custTxns (observation_window df e s) c with
      | nil => exact absurd hts hne
      | cons t ts2 =>
        have ht : t ∈ custTxns (observation_window df e s) c := by rw [hts]; simp
        rcases mem_custTxns.mp ht with ⟨htl, htc⟩
        have htR : t ∈ obs_restricted df e s tn fq :=
          mem_obs_restricted.mpr ⟨htl, by rw [htc]; exact hc⟩
        have hcm : c ∈ customers (obs_restricted df e s tn fq) :=
          mem_customers.mpr ⟨t, htR, htc⟩
        exact ⟨featureRow (obs_restricted df e s tn fq) (outcome_window df e s) e c,
          mem_run_features.mpr ⟨c, hcm, rfl⟩, rfl⟩
  · intro r hr hrc
    rcases mem_run_features.mp hr with ⟨c2, hc2, hrow⟩
    have hcc : c2 = c := by rw [← hrow] at hrc; exact hrc
    subst hcc
    rw [← hrow]
    constructor
    · show some (if c2 ∈ purchase_customers (outcome_window df e s) then 0 else 1) =
          some 1 ↔
          ¬ ∃ t ∈ outcome_window df e s, t.customer_id = c2 ∧ 0 < t.quantity
      by_cases hpc : c2 ∈ purchase_customers (outcome_window df e s)
      · rw [if_pos hpc]
        constructor
        · intro h01
          exact absurd (Option.some.inj h01) (by norm_num)
        · intro hno
          exact absurd (mem_purchase_customers.mp hpc) hno
      · rw [if_neg hpc]
        constructor
        · intro _ hex
          exact hpc (mem_purchase_customers.mpr hex)
        · intro _
          rfl
    · show some (if c2 ∈ purchase_customers (outcome_window df e s) then 0 else 1) =
          some 0 ∨
          some (if c2 ∈ purchase_customers (outcome_window df e s) then 0 else 1) =
          some 1
      by_cases hpc : c2 ∈ purchase_customers (outcome_window df e s)
      · left; rw [if_pos hpc]
      · right; rw [if_neg hpc]

/-- Witness for C3: on the sample table customer 1 is eligible, its only
outcome-window activity is a pure return (quantity -3), and its label is
churned = 1. -/
theorem C3_witness :
    (featureRow (obs_restricted sampleDf sampleE sampleS 10 2)
        (outcome_window sampleDf sampleE sampleS) sampleE 1).churned = some 1 :=
  (((C3_churn_label_characterisation sampleDf sampleE sampleS 10 2 1
      (by decide)).2 _ (mem_run_features.mpr ⟨1, by decide, rfl⟩) rfl).1).mpr
    (by decide)

/-- Claim C7: every row of the merged feature table has nonnegative recency
and nonnegative days_as_customer, a consequence of the strict upper
bound at observation_end in the splitter. -/
theorem C7_recency_and_span_nonneg (df : List Txn) (e s : Int) (tn fq : Nat)
    (r : FeatureRow) (hr : r ∈ run_features df e s tn fq) :
    0 ≤ r.recency ∧ 0 ≤ r.days_as_customer := by
  rcases mem_run_features.mp hr with ⟨c, hc, hrow⟩
  have hne : custTxns (obs_restricted df e s tn fq) c ≠ [] := custTxns_ne_nil hc
  rw [← hrow]
  constructor
  · show 0 ≤ recency_of (custTxns (obs_restricted df e s tn fq) c) e
    exact recency_nonneg hne
      (fun t ht => obs_restricted_date_lt (mem_custTxns.mp ht).1)
  · show 0 ≤ days_span (custTxns (obs_restricted df e s tn fq) c)
    exact days_span_nonneg hne

/-- Witness for C7: the feature row of customer 1 of the sample table. -/
theorem C7_witness :
    0 ≤ (featureRow (obs_restricted sampleDf sampleE sampleS 10 2)
        (outcome_window sampleDf sampleE sampleS) sampleE 1).recency ∧
    0 ≤ (featureRow (obs_restricted sampleDf sampleE sampleS 10 2)
        (outcome_window sampleDf sampleE sampleS) sampleE 1).days_as_customer :=
  C7_recency_and_span_nonneg sampleDf sampleE sampleS 10 2 _
    (mem_run_features.mpr ⟨1, by decide, rfl⟩)

/-- Claim C8: every row of the merged feature table has
purchase_velocity = frequency / ((days_as_customer + 1) / 30) and
avg_days_between_purchases = (days_as_customer + 1) / frequency, and the
product of the two is exactly 30. -/
theorem C8_velocity_inverse_identity (df : List Txn) (e s : Int) (tn fq : Nat)
    (r : FeatureRow) (hr : r ∈ run_features df e s tn fq) :
    r.purchase_velocity = (r.frequency : ℚ) / (((r.days_as_customer : ℚ) + 1) / 30) ∧
    r.avg_days_between_purchases = ((r.days_as_customer : ℚ) + 1) / (r.frequency : ℚ) ∧
    r.purchase_velocity * r.avg_days_between_purchases = 30 := by
  rcases mem_run_features.mp hr with ⟨c, hc, hrow⟩
  have hne : custTxns (obs_restricted df e s tn fq) c ≠ [] := custTxns_ne_nil hc
  rw [← hrow]
  refine ⟨rfl, rfl, ?_⟩
  have hf := one_le_nInvoices hne
  have hd := days_span_nonneg hne
  show purchase_velocity_of (custTxns (obs_restricted df e s tn fq) c) *
      avg_days_between_purchases_of (custTxns (obs_restricted df e s tn fq) c) = 30
  unfold purchase_velocity_of avg_days_between_purchases_of
  have hfq : ((nInvoices (custTxns (obs_restricted df e s tn fq) c) : ℚ)) ≠ 0 := by
    have : 0 < (nInvoices (custTxns (obs_restricted df e s tn fq) c) : ℚ) := by
      exact_mod_cast hf
    exact ne_of_gt this
  have hdq : ((days_span (custTxns (obs_restricted df e s tn fq) c) : ℚ) + 1) ≠ 0 := by
    have : (0 : ℚ) ≤ (days_span (custTxns (obs_restricted df e s tn fq) c) : ℚ) := by
      exact_mod_cast hd
    linarith
  field_simp

/-- Witness for C8: the feature row of customer 1 of the sample table,
where the product of velocity and average gap is 30. -/
theorem C8_witness :
    (featureRow (obs_restricted sampleDf sampleE sampleS 10 2)
        (outcome_window sampleDf sampleE sampleS) sampleE 1).purchase_velocity *
      (featureRow (obs_restricted sampleDf sampleE sampleS 10 2)
        (outcome_window sampleDf sampleE sampleS) sampleE 1).avg_days_between_purchases
      = 30 :=
  (C8_velocity_inverse_identity sampleDf sampleE sampleS 10 2 _
    (mem_run_features.mpr ⟨1, by decide, rfl⟩)).2.2

/-- Claim C5: every row of the merged feature table satisfies
return_rate = n_return_invoices / frequency with frequency at least 1,
the rate lies in the closed unit interval, has_returns holds iff
n_return_invoices is positive, and a customer with no return lines gets
the zero-filled values. -/
theorem C5_return_metrics (df : List Txn) (e s : Int) (tn fq : Nat)
    (r : FeatureRow) (hr : r ∈ run_features df e s tn fq) :
    r.return_rate = (r.n_return_invoices : ℚ) / (r.frequency : ℚ) ∧
    1 ≤ r.frequency ∧
    0 ≤ r.return_rate ∧ r.return_rate ≤ 1 ∧
    (r.has_returns = true ↔ 0 < r.n_return_invoices) ∧
    ((∀ t ∈ custTxns (obs_restricted df e s tn fq) r.customer_id,
        t.is_return = false) →
      r.n_return_invoices = 0 ∧ r.return_amount = 0 ∧ r.return_rate = 0 ∧
      r.has_returns = false) := by
  rcases mem_run_features.mp hr with ⟨c, hc, hrow⟩
  have hne : custTxns (obs_restricted df e s tn fq) c ≠ [] := custTxns_ne_nil hc
  have hf := one_le_nInvoices hne
  have hnle : n_return_invoices_of (custTxns (obs_restricted df e s tn fq) c) ≤
      nInvoices (custTxns (obs_restricted df e s tn fq) c) :=
    nInvoices_filter_le (custTxns (obs_restricted df e s tn fq) c) (fun t => t.is_return)
  have hfq : (0 : ℚ) < (nInvoices (custTxns (obs_restricted df e s tn fq) c) : ℚ) := by
    exact_mod_cast hf
  rw [← hrow]
  refine ⟨rfl, hf, ?_, ?_, ?_, ?_⟩
  · show 0 ≤ return_rate_of (custTxns (obs_restricted df e s tn fq) c)
    unfold return_rate_of
    exact div_nonneg (by positivity) (le_of_lt hfq)
  · show return_rate_of (custTxns (obs_restricted df e s tn fq) c) ≤ 1
    unfold return_rate_of
    rw [div_le_one hfq]
    exact_mod_cast hnle
  · show decide (0 < n_return_invoices_of (custTxns (obs_restricted df e s tn fq) c))
        = true ↔ 0 < n_return_invoices_of (custTxns (obs_restricted df e s tn fq) c)
    simp
  · intro hno
    have hnil : return_lines (custTxns (obs_restricted df e s tn fq) c) = [] := by
      apply List.filter_eq_nil_iff.mpr
      intro t ht
      rw [hno t ht]
      simp
    constructor
    · show n_return_invoices_of (custTxns (obs_restricted df e s tn fq) c) = 0
      unfold n_return_invoices_of
      rw [hnil]
      rfl
    constructor
    · show return_amount_of (custTxns (obs_restricted df e s tn fq) c) = 0
      unfold return_amount_of
      rw [hnil]
      show qabs ([] : List ℚ).sum = 0
      norm_num [qabs]
    constructor
    · show return_rate_of (custTxns (obs_restricted df e s tn fq) c) = 0
      unfold return_rate_of n_return_invoices_of
      rw [hnil]
      show ((nInvoices [] : ℚ)) / _ = 0
      norm_num [nInvoices]
    · show decide (0 < n_return_invoices_of (custTxns (obs_restricted df e s tn fq) c))
          = false
      unfold n_return_invoices_of
      rw [hnil]
      rfl

/-- Witness for C5: the return rate of the sample customer (one return
invoice out of two) is at most one. -/
theorem C5_witness :
    (featureRow (obs_restricted sampleDf sampleE sampleS 10 2)
        (outcome_window sampleDf sampleE sampleS) sampleE 1).return_rate ≤ 1 :=
  (C5_return_metrics sampleDf sampleE sampleS 10 2 _
    (mem_run_features.mpr ⟨1, by decide, rfl⟩)).2.2.2.1

end Churn

namespace Churn

/-- Claim C6: every row of the merged feature table has nonnegative
monetary_gross, unconditionally; and when the lines of that customer in
the restricted observation window satisfy the upstream cleaning contract
and none of them has a zero total_amount, the identity
monetary_net + return_amount = monetary_gross holds, return_amount being
the absolute value of the summed total_amount of the return lines. -/
theorem C6_monetary_identity (df : List Txn) (e s : Int) (tn fq : Nat)
    (r : FeatureRow) (hr : r ∈ run_features df e s tn fq) :
    0 ≤ r.monetary_gross ∧
    ((∀ t ∈ custTxns (obs_restricted df e s tn fq) r.customer_id, cleanedLine t) →
     (∀ t ∈ custTxns (obs_restricted df e s tn fq) r.customer_id,
        t.total_amount ≠ 0) →
     r.monetary_net + r.return_amount = r.monetary_gross) := by
  rcases mem_run_features.mp hr with ⟨c, hc, hrow⟩
  rw [← hrow]
  constructor
  · show 0 ≤ monetary_gross_of (custTxns (obs_restricted df e s tn fq) c)
    apply qsum_nonneg
    intro x hx
    rcases List.mem_map.mp hx with ⟨t, ht, rfl⟩
    have hdec := (List.mem_filter.mp ht).2
    have hlt : 0 < t.total_amount := of_decide_eq_true hdec
    linarith
  · intro hclean hnz
    have hcleanc : ∀ t ∈ custTxns (obs_restricted df e s tn fq) c,
        cleanedLine t := hclean
    have hnzc : ∀ t ∈ custTxns (obs_restricted df e s tn fq) c,
        t.total_amount ≠ 0 := hnz
    have hsign : ∀ t ∈ custTxns (obs_restricted df e s tn fq) c,
        (t.is_return = true → t.total_amount < 0) ∧
        ((!(decide (0 < t.total_amount))) = t.is_return) := by
      intro t ht
      rcases hcleanc t ht with ⟨hamt, hret, hple⟩
      have hnz2 := hnzc t ht
      have hppos : 0 < t.price := by
        rcases lt_or_eq_of_le hple with h1 | h1
        · exact h1
        · exfalso; apply hnz2; rw [hamt, ← h1, mul_zero]
      by_cases hq : t.quantity < 0
      · have hneg : t.total_amount < 0 := by
          rw [hamt]
          exact mul_neg_of_neg_of_pos (by exact_mod_cast hq) hppos
        have hn1 : ¬ (0 < t.total_amount) := by linarith
        constructor
        · intro _; exact hneg
        · simp [hn1, hret, hq]
      · have hq0 : t.quantity ≠ 0 := by
          intro h0; apply hnz2; rw [hamt, h0]; simp
        have hqpos : 0 < t.quantity := by omega
        have hpos : 0 < t.total_amount := by
          rw [hamt]
          exact mul_pos (by exact_mod_cast hqpos) hppos
        constructor
        · intro hcon
          rw [hret] at hcon
          simp at hcon
          omega
        · simp [hpos, hret, hq]
    have hsplit := sum_map_filter_split (custTxns (obs_restricted df e s tn fq) c)
        (fun t => decide (0 < t.total_amount)) (fun t => t.total_amount)
    have hfc : (custTxns (obs_restricted df e s tn fq) c).filter
          (fun t => !(decide (0 < t.total_amount))) =
        (custTxns (obs_restricted df e s tn fq) c).filter (fun t => t.is_return) :=
      List.filter_congr (fun t ht => (hsign t ht).2)
    have hretsum : (((custTxns (obs_restricted df e s tn fq) c).filter
        (fun t => t.is_return)).map (fun t => t.total_amount)).sum ≤ 0 := by
      apply qsum_nonpos
      intro x hx
      rcases List.mem_map.mp hx with ⟨t, ht, rfl⟩
      rcases List.mem_filter.mp ht with ⟨htm, hretb⟩
      exact le_of_lt ((hsign t htm).1 hretb)
    rw [hfc] at hsplit
    show monetary_net_of (custTxns (obs_restricted df e s tn fq) c) +
        return_amount_of (custTxns (obs_restricted df e s tn fq) c) =
        monetary_gross_of (custTxns (obs_restricted df e s tn fq) c)
    unfold monetary_net_of return_amount_of monetary_gross_of return_lines
    rw [qabs_of_nonpos hretsum]
    linarith [hsplit]

/-- Witness for C6: the nonnegativity and the monetary identity evaluated
on the sample customer, whose lines (10 and 15 from invoice A, -5 from
return invoice B) satisfy the cleaning contract and contain no zero
amount. -/
theorem C6_witness :
    0 ≤ (featureRow (obs_restricted sampleDf sampleE sampleS 10 2)
        (outcome_window sampleDf sampleE sampleS) sampleE 1).monetary_gross ∧
    (featureRow (obs_restricted sampleDf sampleE sampleS 10 2)
        (outcome_window sampleDf sampleE sampleS) sampleE 1).monetary_net +
      (featureRow (obs_restricted sampleDf sampleE sampleS 10 2)
        (outcome_window sampleDf sampleE sampleS) sampleE 1).return_amount =
      (featureRow (obs_restricted sampleDf sampleE sampleS 10 2)
        (outcome_window sampleDf sampleE sampleS) sampleE 1).monetary_gross :=
  ⟨(C6_monetary_identity sampleDf sampleE sampleS 10 2 _
      (mem_run_features.mpr ⟨1, by decide, rfl⟩)).1,
   (C6_monetary_identity sampleDf sampleE sampleS 10 2 _
      (mem_run_features.mpr ⟨1, by decide, rfl⟩)).2
    (by
      intro t ht
      have hts : custTxns (obs_restricted sampleDf sampleE sampleS 10 2)
          (featureRow (obs_restricted sampleDf sampleE sampleS 10 2)
            (outcome_window sampleDf sampleE sampleS) sampleE 1).customer_id =
          [txnA1, txnA2, txnB] := rfl
      rw [hts] at ht
      simp only [List.mem_cons, List.not_mem_nil, or_false] at ht
      rcases ht with rfl | rfl | rfl <;>
        exact ⟨by norm_num [txnA1, txnA2, txnB], by decide,
          by norm_num [txnA1, txnA2, txnB]⟩)
    (by
      intro t ht
      have hts : custTxns (obs_restricted sampleDf sampleE sampleS 10 2)
          (featureRow (obs_restricted sampleDf sampleE sampleS 10 2)
            (outcome_window sampleDf sampleE sampleS) sampleE 1).customer_id =
          [txnA1, txnA2, txnB] := rfl
      rw [hts] at ht
      simp only [List.mem_cons, List.not_mem_nil, or_false] at ht
      rcases ht with rfl | rfl | rfl <;> norm_num [txnA1, txnA2, txnB])⟩

end Churn
